import Mathlib

/-!
Verification of the data-fetching cache synchronization layer of the
`hell0-tanstack` repository.

The shallow embedding below covers:

* the query-key factory `petstoreKeys` from `src/api/petstore-hooks.ts`;
* the bearer-token attachment `attachAuthToClient` from `src/lib/auth.ts`,
  which mutates a shared client configuration;
* the nullish-coalescing result coercions of the query hooks
  (`response.data ?? []`, `?? null`, `?? {}`);
* a Fetch Coordinator state machine (cache store, pending-request table,
  fetch-invocation counter) modelled from the specification, since the
  coordinator itself lives in the external query library and is not part
  of the repository sources; the hooks only configure it (query keys,
  `enabled` flags, `staleTime`).
-/

/-- Pet status filter values accepted by `petstoreKeys.petsByStatus`
(`"available" | "pending" | "sold"`). -/
inductive PetStatus : Type
  | available
  | pending
  | sold
deriving DecidableEq, Repr

/-- One segment of a query key: the hooks build keys out of string literals,
numeric ids, and an embedded status-filter array. -/
inductive KeySeg : Type
  | str (s : String)
  | num (n : Int)
  | statusList (l : List PetStatus)
deriving DecidableEq, Repr

/-- A cache key is an ordered sequence of segments; two logical requests are
the same iff their key sequences are equal element-wise. -/
abbrev CacheKey : Type := List KeySeg

/-- `petstoreKeys.all = ["petstore"]` -/
def petstoreKeys.all : CacheKey := [KeySeg.str ("petstore")]

/-- `petstoreKeys.pets() = [...all, "pets"]` -/
def petstoreKeys.pets : CacheKey := petstoreKeys.all ++ [KeySeg.str ("pets")]

/-- `petstoreKeys.pet(id) = [...pets(), id]` -/
def petstoreKeys.pet (id : Int) : CacheKey := petstoreKeys.pets ++ [KeySeg.num id]

/-- `petstoreKeys.petsByStatus(status) = [...pets(), "status", status]`:
the status array is embedded as a single segment, in the order given by the
caller, with no sorting or other normalization. -/
def petstoreKeys.petsByStatus (status : List PetStatus) : CacheKey :=
  petstoreKeys.pets ++ [KeySeg.str ("status"), KeySeg.statusList status]

/-- `petstoreKeys.inventory() = [...all, "inventory"]` -/
def petstoreKeys.inventory : CacheKey := petstoreKeys.all ++ [KeySeg.str ("inventory")]

/-- `petstoreKeys.orders() = [...all, "orders"]` -/
def petstoreKeys.orders : CacheKey := petstoreKeys.all ++ [KeySeg.str ("orders")]

/-- `petstoreKeys.order(id) = [...orders(), id]` -/
def petstoreKeys.order (id : Int) : CacheKey := petstoreKeys.orders ++ [KeySeg.num id]

/-- The part of the shared, process-wide generated client configuration that
`attachAuthToClient` mutates: the `Authorization` header (`none` = header
absent). There is one such configuration per process, shared by all calls. -/
structure ClientConfig where
  authHeader : Option String
deriving DecidableEq, Repr

/-- Client configuration before any token is attached. -/
def emptyClientConfig : ClientConfig := { authHeader := none }

/-- JavaScript `t.startsWith(pre)`: `pre`'s character sequence is a prefix of
`t`'s character sequence. -/
def jsStartsWith (t pre : String) : Bool := pre.data.isPrefixOf t.data

/-- `attachAuthToClient` from `src/lib/auth.ts`: `!token` (absent or empty
string) removes the `Authorization` header; otherwise the header becomes the
token itself when it already starts with `"Bearer "`, and `"Bearer " + token`
otherwise.  Note that it returns an updated *shared* configuration: the
source mutates the process-wide generated client. -/
def attachAuthToClient (token : Option String) (client : ClientConfig) : ClientConfig :=
  match token with
  | none => { client with authHeader := none }
  | some t =>
    if t = "" then { client with authHeader := none }
    else if jsStartsWith t ("Bearer ") then { client with authHeader := some t }
    else { client with authHeader := some ("Bearer " ++ t) }

/-- A JavaScript value as seen by the nullish-coalescing operator `??`:
`undefined`, `null`, or a proper value. -/
inductive JSVal (α : Type) : Type
  | undef
  | nullv
  | val (a : α)
deriving DecidableEq, Repr

/-- JavaScript `x ?? d`: `d` when `x` is `undefined` or `null`, `x` otherwise. -/
def nullishCoalesce {α : Type} (x d : JSVal α) : JSVal α :=
  match x with
  | JSVal.undef => d
  | JSVal.nullv => d
  | JSVal.val a => JSVal.val a

/-- Whether a JavaScript value is `undefined`. -/
def JSVal.isUndef {α : Type} : JSVal α → Bool
  | JSVal.undef => true
  | JSVal.nullv => false
  | JSVal.val _ => false

/-- `useFindPetsByStatus` query function result: `response.data ?? []`. -/
def useFindPetsByStatus_result {α : Type} (d : JSVal (List α)) : JSVal (List α) :=
  nullishCoalesce d (JSVal.val [])

/-- `useGetPetById` query function result: `response.data ?? null`. -/
def useGetPetById_result {α : Type} (d : JSVal α) : JSVal α :=
  nullishCoalesce d JSVal.nullv

/-- `useGetInventory` query function result: `response.data ?? {}` (the empty
object is modelled as the empty association list). -/
def useGetInventory_result (d : JSVal (List (String × Int))) : JSVal (List (String × Int)) :=
  nullishCoalesce d (JSVal.val [])

/-- `useGetOrderById` query function result: `response.data ?? null`. -/
def useGetOrderById_result {α : Type} (d : JSVal α) : JSVal α :=
  nullishCoalesce d JSVal.nullv

/-- Cache entry status (spec section 3/4.6):
`idle → loading → {success, error}`, `success → stale`, `stale → loading`,
`error → loading`. -/
inductive EntryStatus : Type
  | idle
  | loading
  | success
  | stale
  | error
deriving DecidableEq, Repr

/-- Modelled from the spec: a `CacheEntry` of the Cache Store (the store
itself lives in the external query library, not in the repository sources):
data, status, fetch timestamp, and recorded error information. -/
structure CacheEntry (α ε : Type) where
  data : Option α
  status : EntryStatus
  fetchedAt : Option Nat
  errInfo : Option ε
deriving DecidableEq, Repr

/-- Modelled from the spec: the per-call fetch policy consumed by the Fetch
Coordinator (`enabled` flag and staleness window in milliseconds). -/
structure FetchPolicy where
  enabled : Bool
  staleMs : Int
deriving DecidableEq, Repr

/-- `DEFAULT_STALE_TIME` from the query-client provider source:
`1000 * 60 * 2` (two minutes). -/
def DEFAULT_STALE_TIME : Int := 1000 * 60 * 2

/-- Modelled from the spec: the Fetch Coordinator state (the coordinator is
library code, absent from the repository sources).  `store` is the Cache
Store, `pending` maps a key to the waiters of its single in-flight fetch,
and `fetchCount` counts the underlying fetch-function invocations per key. -/
structure CoordState (α ε : Type) where
  store : List (CacheKey × CacheEntry α ε)
  pending : List (CacheKey × List Nat)
  fetchCount : List (CacheKey × Nat)
deriving DecidableEq, Repr

/-- The empty coordinator state: nothing cached, nothing pending. -/
def emptyState {α ε : Type} : CoordState α ε :=
  { store := [], pending := [], fetchCount := [] }

/-- Association-list lookup on cache keys (first binding wins). -/
def assocGet {β : Type} (l : List (CacheKey × β)) (k : CacheKey) : Option β :=
  match l with
  | [] => none
  | (k', v) :: rest => if k' = k then some v else assocGet rest k

/-- Association-list update: replace the first binding of `k`, or append. -/
def assocSet {β : Type} (l : List (CacheKey × β)) (k : CacheKey) (v : β) :
    List (CacheKey × β) :=
  match l with
  | [] => [(k, v)]
  | (k', v') :: rest =>
    if k' = k then (k, v) :: rest else (k', v') :: assocSet rest k v

/-- Association-list removal of every binding of `k`. -/
def assocErase {β : Type} (l : List (CacheKey × β)) (k : CacheKey) :
    List (CacheKey × β) :=
  match l with
  | [] => []
  | (k', v') :: rest =>
    if k' = k then assocErase rest k else (k', v') :: assocErase rest k

/-- Number of underlying fetch invocations recorded for `k`. -/
def countOf {α ε : Type} (st : CoordState α ε) (k : CacheKey) : Nat :=
  (assocGet st.fetchCount k).getD 0

/-- Modelled from the spec (section 4.4 step 2): an entry serves a cache hit
iff its status is `success` and `now - fetchedAt < staleMs`; with integer
subtraction a zero or negative `staleMs` can never satisfy the bound once
`fetchedAt ≤ now`. -/
def isFresh {α ε : Type} (e : CacheEntry α ε) (now : Nat) (staleMs : Int) : Bool :=
  decide (e.status = EntryStatus.success) &&
    match e.fetchedAt with
    | some t0 => decide ((now : Int) - (t0 : Int) < staleMs)
    | none => false

/-- Outcome of the synchronous phase of a `getOrFetch` call. -/
inductive StartResult (α : Type) : Type
  | cachedHit (d : Option α)
  | joinedPending
  | startedFetch
  | disabled
deriving DecidableEq, Repr

/-- The entry written when a fetch starts: previous data (if any) is kept
visible, status becomes `loading`. -/
def toLoading {α ε : Type} (e : Option (CacheEntry α ε)) : CacheEntry α ε :=
  match e with
  | some e => { e with status := EntryStatus.loading }
  | none =>
    { data := none, status := EntryStatus.loading, fetchedAt := none, errInfo := none }

/-- Modelled from the spec (section 4.4 steps 3-4): if a pending request for
`k` exists, attach the caller as an additional waiter; otherwise create the
pending request, mark the entry `loading`, and invoke the fetch function
(recorded by bumping the per-key fetch counter). -/
def startOrJoin {α ε : Type} (k : CacheKey) (caller : Nat) (st : CoordState α ε) :
    CoordState α ε × StartResult α :=
  match assocGet st.pending k with
  | some ws =>
    ({ st with pending := assocSet st.pending k (ws ++ [caller]) },
     StartResult.joinedPending)
  | none =>
    ({ store := assocSet st.store k (toLoading (assocGet st.store k)),
       pending := assocSet st.pending k [caller],
       fetchCount := assocSet st.fetchCount k (countOf st k + 1) },
     StartResult.startedFetch)

/-- Modelled from the spec (section 4.4): the synchronous phase of
`getOrFetch(key, fetchFn, policy)`: a disabled policy short-circuits
untouched; a fresh `success` entry is served from cache; otherwise the
caller joins the pending request or starts the single fetch. -/
def getOrFetchStart {α ε : Type} (k : CacheKey) (pol : FetchPolicy) (now : Nat)
    (caller : Nat) (st : CoordState α ε) : CoordState α ε × StartResult α :=
  if pol.enabled = false then (st, StartResult.disabled)
  else
    match assocGet st.store k with
    | some e =>
      if isFresh e now pol.staleMs then (st, StartResult.cachedHit e.data)
      else startOrJoin k caller st
    | none => startOrJoin k caller st

/-- Modelled from the spec (section 4.4 step 5): on fetch success write
`status=success`, `data`, `fetchedAt=now`, resolve all waiters with the
data, and remove the pending request. -/
def settleSuccess {α ε : Type} (k : CacheKey) (d : α) (now : Nat)
    (st : CoordState α ε) : CoordState α ε × List (Nat × α) :=
  ({ store := assocSet st.store k
       { data := some d, status := EntryStatus.success,
         fetchedAt := some now, errInfo := none },
     pending := assocErase st.pending k,
     fetchCount := st.fetchCount },
   ((assocGet st.pending k).getD []).map (fun c => (c, d)))

/-- Modelled from the spec (section 4.4 step 6): on fetch failure write
`status=error`, record the error, reject all waiters with the same error,
and remove the pending request; the `error` status never serves a cache
hit, so the next read re-attempts from scratch. -/
def settleFailure {α ε : Type} (k : CacheKey) (e : ε) (st : CoordState α ε) :
    CoordState α ε × List (Nat × ε) :=
  ({ store := assocSet st.store k
       { data := (assocGet st.store k).bind (fun en => en.data),
         status := EntryStatus.error,
         fetchedAt := (assocGet st.store k).bind (fun en => en.fetchedAt),
         errInfo := some e },
     pending := assocErase st.pending k,
     fetchCount := st.fetchCount },
   ((assocGet st.pending k).getD []).map (fun c => (c, e)))

/-- Marking an entry stale keeps its data and timestamps. -/
def markStale {α ε : Type} (e : CacheEntry α ε) : CacheEntry α ε :=
  { e with status := EntryStatus.stale }

/-- Mark one store binding stale when its key extends the given key sequence. -/
def staleIf {α ε : Type} (pref : CacheKey) (p : CacheKey × CacheEntry α ε) :
    CacheKey × CacheEntry α ε :=
  match pref.isPrefixOf p.1 with
  | true => (p.1, markStale p.2)
  | false => p

/-- Modelled from the spec (section 4.6): `invalidate(prefix)` marks every
entry whose key sequence starts with the given key sequence as `stale`,
deleting nothing and leaving all other entries untouched.  The repository
exposes this through `invalidatePetQueries` and friends, which call the
library's `invalidateQueries` with a `petstoreKeys` key as the key-sequence
argument. -/
def invalidate {α ε : Type} (pref : CacheKey) (st : CoordState α ε) : CoordState α ε :=
  { st with store := (st.store.map (staleIf pref)) }

/-- Sequential interleaving of the synchronous phases of several concurrent
`getOrFetch` calls for the same key (the host is a single cooperative task,
so concurrent calls interleave at suspension points). -/
def startMany {α ε : Type} (k : CacheKey) (pol : FetchPolicy) (now : Nat)
    (st : CoordState α ε) : List Nat → CoordState α ε × List (StartResult α)
  | [] => (st, [])
  | c :: cs =>
    ((startMany k pol now (getOrFetchStart k pol now c st).1 cs).1,
     (getOrFetchStart k pol now c st).2 ::
       (startMany k pol now (getOrFetchStart k pol now c st).1 cs).2)

/-- One item of the SSR hydration payload: `{key, data, fetchedAt}`. -/
structure HydrationItem (α : Type) where
  key : CacheKey
  data : Option α
  fetchedAt : Nat
deriving DecidableEq, Repr

/-- Modelled from the spec (section 4.5): `snapshot(store)` exports only the
settled `success` entries as `{key, data, fetchedAt}` triples; `loading`,
`error` and pending state is never serialized. -/
def snapshot {α ε : Type} (st : CoordState α ε) : List (HydrationItem α) :=
  st.store.filterMap (fun p =>
    match p.2.status, p.2.fetchedAt with
    | EntryStatus.success, some t =>
      some { key := p.1, data := p.2.data, fetchedAt := t }
    | _, _ => none)

/-- The settled outcome of one server-side fetch: data with its timestamp,
or a failure. -/
inductive FetchOutcome (α ε : Type) : Type
  | ok (d : α) (t : Nat)
  | fail (e : ε)
deriving DecidableEq, Repr

/-- Record one server-side fetch outcome in the server store. -/
def applyOutcome {α ε : Type} (st : CoordState α ε)
    (p : CacheKey × FetchOutcome α ε) : CoordState α ε :=
  match p.2 with
  | FetchOutcome.ok d t => (settleSuccess p.1 d t st).1
  | FetchOutcome.fail e => (settleFailure p.1 e st).1

/-- Modelled from the spec (section 4.5): the server-side render pipeline,
as a total function on the list of fetch outcomes — a failed fetch is
recorded like any other settlement and never aborts the pipeline. -/
def serverRender {α ε : Type} (outcomes : List (CacheKey × FetchOutcome α ε)) :
    CoordState α ε :=
  outcomes.foldl applyOutcome emptyState

/-- Replay one hydration item into a client store: insert it as a `success`
entry unless the key already has an entry (existing entries win). -/
def hydrateOne {α ε : Type} (st : CoordState α ε) (it : HydrationItem α) :
    CoordState α ε :=
  match assocGet st.store it.key with
  | some _ => st
  | none =>
    { st with store := (assocSet st.store it.key
        { data := it.data, status := EntryStatus.success,
          fetchedAt := some it.fetchedAt, errInfo := none }) }

/-- Modelled from the spec (section 4.5): `hydrate(store, payload)` replays
the payload into a client-side store. -/
def hydrate {α ε : Type} (payload : List (HydrationItem α)) (st : CoordState α ε) :
    CoordState α ε :=
  payload.foldl hydrateOne st

/-- `enabled: petId > 0` from `useGetPetById` in `src/api/petstore-hooks.ts`. -/
def useGetPetById_enabled (petId : Int) : Bool := decide (0 < petId)

/-- `enabled: orderId > 0` from `useGetOrderById` in `src/api/petstore-hooks.ts`. -/
def useGetOrderById_enabled (orderId : Int) : Bool := decide (0 < orderId)

/-- The fetch policy `useGetPetById` configures: its `enabled` flag with the
provider's default staleness window. -/
def useGetPetById_policy (petId : Int) : FetchPolicy :=
  { enabled := useGetPetById_enabled petId, staleMs := DEFAULT_STALE_TIME }

/-- The fetch policy `useGetOrderById` configures: its `enabled` flag with
the provider's default staleness window. -/
def useGetOrderById_policy (orderId : Int) : FetchPolicy :=
  { enabled := useGetOrderById_enabled orderId, staleMs := DEFAULT_STALE_TIME }

/-- A concrete settled cache entry used in concrete evaluations. -/
def wEntry : CacheEntry Nat String :=
  { data := some 42, status := EntryStatus.success, fetchedAt := some 0, errInfo := none }

/-- A store holding one settled inventory entry fetched at time `0`. -/
def wStore3 : CoordState Nat String :=
  { store := [(petstoreKeys.inventory, wEntry)], pending := [], fetchCount := [] }

/-- A store holding one pet entry and one order entry, both settled. -/
def w4State : CoordState Nat String :=
  { store := [(petstoreKeys.pet 123, wEntry), (petstoreKeys.order 9, wEntry)],
    pending := [], fetchCount := [] }

/-- A state with one in-flight fetch for pet `7` and three coalesced waiters. -/
def w5State : CoordState Nat String :=
  { store := [(petstoreKeys.pet 7, toLoading none)],
    pending := [(petstoreKeys.pet 7, [1, 2, 3])],
    fetchCount := [(petstoreKeys.pet 7, 1)] }

/-- Server-side fetch outcomes: the inventory fetch succeeds, the pets fetch
fails with a network error. -/
def w8Outcomes : List (CacheKey × FetchOutcome Nat String) :=
  [(petstoreKeys.inventory, FetchOutcome.ok 5 0),
   (petstoreKeys.pets, FetchOutcome.fail ("NetworkError"))]

theorem assocGet_assocSet_same {β : Type} (l : List (CacheKey × β)) (k : CacheKey)
    (v : β) : assocGet (assocSet l k v) k = some v := by
  induction l with
  | nil => simp [assocSet, assocGet]
  | cons hd tl ih =>
    obtain ⟨k', v'⟩ := hd
    by_cases h : k' = k
    · simp [assocSet, assocGet, h]
    · simp [assocSet, assocGet, h, ih]

theorem assocGet_assocSet_ne {β : Type} (l : List (CacheKey × β)) (k k' : CacheKey)
    (v : β) (h : ¬ k = k') : assocGet (assocSet l k v) k' = assocGet l k' := by
  induction l with
  | nil => simp [assocSet, assocGet, h]
  | cons hd tl ih =>
    obtain ⟨k'', v''⟩ := hd
    by_cases h2 : k'' = k
    · subst h2
      simp [assocSet, assocGet, h]
    · simp [assocSet, assocGet, h2, ih]

theorem assocSet_self {β : Type} {l : List (CacheKey × β)} {k : CacheKey} {v : β}
    (h : assocGet l k = some v) : assocSet l k v = l := by
  induction l with
  | nil => simp [assocGet] at h
  | cons hd tl ih =>
    obtain ⟨k', v'⟩ := hd
    by_cases h2 : k' = k
    · subst h2
      simp [assocGet] at h
      simp [assocSet, h]
    · simp [assocGet, h2] at h
      simp [assocSet, h2, ih h]

theorem assocSet_assocSet_same {β : Type} (l : List (CacheKey × β)) (k : CacheKey)
    (v w : β) : assocSet (assocSet l k v) k w = assocSet l k w := by
  induction l with
  | nil => simp [assocSet]
  | cons hd tl ih =>
    obtain ⟨k', v'⟩ := hd
    by_cases h : k' = k
    · simp [assocSet, h]
    · simp [assocSet, h, ih]

theorem assocGet_assocErase_same {β : Type} (l : List (CacheKey × β)) (k : CacheKey) :
    assocGet (assocErase l k) k = none := by
  induction l with
  | nil => simp [assocErase, assocGet]
  | cons hd tl ih =>
    obtain ⟨k', v'⟩ := hd
    by_cases h : k' = k
    · simp [assocErase, h, ih]
    · simp [assocErase, assocGet, h, ih]

theorem mem_assocSet {β : Type} {l : List (CacheKey × β)} {k : CacheKey} {v : β}
    {x : CacheKey × β} (h : x ∈ assocSet l k v) : x ∈ l ∨ x = (k, v) := by
  induction l with
  | nil =>
    simp [assocSet] at h
    exact Or.inr h
  | cons hd tl ih =>
    obtain ⟨k', v'⟩ := hd
    by_cases h2 : k' = k
    · simp [assocSet, h2] at h
      rcases h with h | h
      · exact Or.inr (by simp [h])
      · exact Or.inl (List.mem_cons_of_mem _ h)
    · simp [assocSet, h2] at h
      rcases h with h | h
      · exact Or.inl (by simp [h])
      · rcases ih h with h3 | h3
        · exact Or.inl (List.mem_cons_of_mem _ h3)
        · exact Or.inr h3

theorem assocGet_mapStale {α ε : Type} (pref k : CacheKey)
    (l : List (CacheKey × CacheEntry α ε)) :
    assocGet (l.map (staleIf pref)) k
      = if pref.isPrefixOf k then (assocGet l k).map markStale else assocGet l k := by
  induction l with
  | nil => cases hp : pref.isPrefixOf k <;> simp [assocGet, hp]
  | cons hd tl ih =>
    obtain ⟨k', v'⟩ := hd
    by_cases h : k' = k
    · subst h
      cases hp : pref.isPrefixOf k' <;> simp [assocGet, staleIf, hp]
    · cases hp : pref.isPrefixOf k' <;>
        cases hpk : pref.isPrefixOf k <;>
          simp [assocGet, staleIf, hp, hpk, h, ih]

theorem hydrate_pending {α ε : Type} (payload : List (HydrationItem α)) :
    ∀ st : CoordState α ε, (hydrate payload st).pending = st.pending := by
  induction payload with
  | nil => intro st; rfl
  | cons it payload ih =>
    intro st
    show (hydrate payload (hydrateOne st it)).pending = st.pending
    rw [ih]
    cases h : assocGet st.store it.key <;> simp [hydrateOne, h]

theorem hydrate_fetchCount {α ε : Type} (payload : List (HydrationItem α)) :
    ∀ st : CoordState α ε, (hydrate payload st).fetchCount = st.fetchCount := by
  induction payload with
  | nil => intro st; rfl
  | cons it payload ih =>
    intro st
    show (hydrate payload (hydrateOne st it)).fetchCount = st.fetchCount
    rw [ih]
    cases h : assocGet st.store it.key <;> simp [hydrateOne, h]

theorem assocGet_hydrate_none {α ε : Type} {k : CacheKey}
    (payload : List (HydrationItem α)) :
    ∀ st : CoordState α ε, (∀ it ∈ payload, it.key ≠ k) →
      assocGet st.store k = none → assocGet (hydrate payload st).store k = none := by
  induction payload with
  | nil => intro st _ h; exact h
  | cons it payload ih =>
    intro st hkeys h
    show assocGet (hydrate payload (hydrateOne st it)).store k = none
    refine ih (hydrateOne st it) (fun x hx => hkeys x (List.mem_cons_of_mem _ hx)) ?_
    cases hg : assocGet st.store it.key with
    | some e => simpa [hydrateOne, hg] using h
    | none =>
      have hne : ¬ it.key = k := hkeys it (List.mem_cons_self _ _)
      simpa [hydrateOne, hg, assocGet_assocSet_ne _ _ _ _ hne] using h

theorem serverRender_error_at {α ε : Type} {k : CacheKey}
    (outcomes : List (CacheKey × FetchOutcome α ε)) :
    ∀ st : CoordState α ε,
      (∀ e : CacheEntry α ε, (k, e) ∈ st.store → e.status = EntryStatus.error) →
      (∀ (d : α) (t : Nat), (k, FetchOutcome.ok d t) ∉ outcomes) →
      ∀ e : CacheEntry α ε, (k, e) ∈ (outcomes.foldl applyOutcome st).store →
        e.status = EntryStatus.error := by
  induction outcomes with
  | nil => intro st hst _ e he; exact hst e he
  | cons p ps ih =>
    intro st hst hout e he
    refine ih (applyOutcome st p) ?_ (fun d t hmem => hout d t (List.mem_cons_of_mem _ hmem)) e he
    intro e' he'
    obtain ⟨kp, op⟩ := p
    cases op with
    | ok d t =>
      have hkp : ¬ kp = k := by
        intro hk
        exact hout d t (by simp [hk])
      rcases mem_assocSet (by simpa [applyOutcome, settleSuccess] using he') with h | h
      · exact hst e' h
      · exact absurd (congrArg Prod.fst h).symm hkp
    | fail er =>
      rcases mem_assocSet (by simpa [applyOutcome, settleFailure] using he') with h | h
      · exact hst e' h
      · injection h with h1 h2
        rw [h2]

theorem key_mem_snapshot {α ε : Type} {st : CoordState α ε} {it : HydrationItem α}
    (h : it ∈ snapshot st) :
    ∃ e : CacheEntry α ε, (it.key, e) ∈ st.store ∧ e.status = EntryStatus.success := by
  obtain ⟨p, hp, hfp⟩ := List.mem_filterMap.mp h
  obtain ⟨k', e'⟩ := p
  cases hs : e'.status <;> cases hf : e'.fetchedAt <;> simp [hs, hf] at hfp
  subst hfp
  exact ⟨e', hp, hs⟩

theorem startMany_joins {α ε : Type} (k : CacheKey) (pol : FetchPolicy) (now : Nat)
    (cs : List Nat) :
    ∀ (st : CoordState α ε) (ws : List Nat),
      pol.enabled = true →
      (∀ e, assocGet st.store k = some e → isFresh e now pol.staleMs = false) →
      assocGet st.pending k = some ws →
      startMany k pol now st cs
        = ({ st with pending := assocSet st.pending k (ws ++ cs) },
           cs.map (fun _ => StartResult.joinedPending)) := by
  induction cs with
  | nil =>
    intro st ws henab hfr hpend
    simp [startMany, assocSet_self hpend]
  | cons c cs ih =>
    intro st ws henab hfr hpend
    have hstep : getOrFetchStart k pol now c st
        = ({ st with pending := assocSet st.pending k (ws ++ [c]) },
           StartResult.joinedPending) := by
      cases hst : assocGet st.store k with
      | none => simp [getOrFetchStart, henab, hst, startOrJoin, hpend]
      | some e => simp [getOrFetchStart, henab, hst, hfr e hst, startOrJoin, hpend]
    have hih := ih ({ st with pending := assocSet st.pending k (ws ++ [c]) })
      (ws ++ [c]) henab (fun e he => hfr e he) (assocGet_assocSet_same _ _ _)
    simp only [startMany, hstep]
    rw [hih]
    simp [assocSet_assocSet_same]
/-- C1: the key factory does NOT normalize the order of the status filter
array: the same logical filter set `{available, pending}` presented in two
different orders yields two different cache keys, so the two calls miss each
other's cache entry.  This refutes the claimed normalization on the code as
written (the spec itself flags this as a defect to fix). -/
theorem C1_petsByStatus_not_order_normalized :
    petstoreKeys.petsByStatus [PetStatus.available, PetStatus.pending] ≠
      petstoreKeys.petsByStatus [PetStatus.pending, PetStatus.available] := by
  decide

/-- C6: auth is NOT isolated per call in the source: `attachAuthToClient`
writes the resolved token into the shared process-wide client configuration,
so resolving the token for a second call (token `"tokenB"`) overwrites the
credential that the first call's context (token `"tokenA"`) transmits from
the shared configuration.  This refutes the claimed per-call isolation on the
code as written (the spec itself rejects the source's global mutation). -/
theorem C6_auth_attachment_mutates_shared_state :
    (attachAuthToClient (some ("tokenA")) emptyClientConfig).authHeader
        = some ("Bearer tokenA") ∧
    (attachAuthToClient (some ("tokenB"))
        (attachAuthToClient (some ("tokenA")) emptyClientConfig)).authHeader
        = some ("Bearer tokenB") ∧
    attachAuthToClient (some ("tokenB"))
        (attachAuthToClient (some ("tokenA")) emptyClientConfig)
      ≠ attachAuthToClient (some ("tokenA")) emptyClientConfig := by
  decide

/-- C7: bearer scheme attachment: an absent token removes the
`Authorization` header; a nonempty token without the `"Bearer "` scheme is
transmitted as `"Bearer " + token`; a token already starting with
`"Bearer "` is transmitted unchanged (the scheme is never applied twice). -/
theorem C7_bearer_scheme_attachment :
    (∀ client : ClientConfig, (attachAuthToClient none client).authHeader = none) ∧
    (∀ (client : ClientConfig) (t : String), t ≠ "" →
      jsStartsWith t ("Bearer ") = false →
      (attachAuthToClient (some t) client).authHeader = some ("Bearer " ++ t)) ∧
    (∀ (client : ClientConfig) (t : String), t ≠ "" →
      jsStartsWith t ("Bearer ") = true →
      (attachAuthToClient (some t) client).authHeader = some t) := by
  refine ⟨fun _ => rfl, ?_, ?_⟩
  · intro client t ht hs
    simp [attachAuthToClient, ht, hs]
  · intro client t ht hs
    simp [attachAuthToClient, ht, hs]

/-- C7 witness: the three concrete cases of the claim, obtained from
`C7_bearer_scheme_attachment` at `none`, `"abc"` and `"Bearer abc"`. -/
theorem C7_bearer_scheme_attachment_witness :
    (attachAuthToClient none emptyClientConfig).authHeader = none ∧
    (attachAuthToClient (some ("abc")) emptyClientConfig).authHeader
        = some ("Bearer " ++ "abc") ∧
    (attachAuthToClient (some ("Bearer abc")) emptyClientConfig).authHeader
        = some ("Bearer abc") :=
  ⟨C7_bearer_scheme_attachment.1 emptyClientConfig,
   C7_bearer_scheme_attachment.2.1 emptyClientConfig ("abc") (by decide) (by decide),
   C7_bearer_scheme_attachment.2.2 emptyClientConfig ("Bearer abc") (by decide) (by decide)⟩

/-- C10: query functions coerce an absent `response.data` to a fixed default
(`[]` for `useFindPetsByStatus`, `null` for `useGetPetById` and
`useGetOrderById`, `{}` for `useGetInventory`), pass a present value through
unchanged, and never produce `undefined`. -/
theorem C10_success_results_never_undefined :
    (∀ (α : Type) (d : JSVal (List α)),
      (useFindPetsByStatus_result d).isUndef = false) ∧
    (∀ (α : Type), useFindPetsByStatus_result (JSVal.undef) = JSVal.val ([] : List α)) ∧
    (∀ (α : Type) (x : List α), useFindPetsByStatus_result (JSVal.val x) = JSVal.val x) ∧
    (∀ (α : Type) (d : JSVal α), (useGetPetById_result d).isUndef = false) ∧
    (∀ (α : Type), useGetPetById_result (JSVal.undef : JSVal α) = JSVal.nullv) ∧
    (∀ (α : Type) (x : α), useGetPetById_result (JSVal.val x) = JSVal.val x) ∧
    (∀ d : JSVal (List (String × Int)), (useGetInventory_result d).isUndef = false) ∧
    (useGetInventory_result JSVal.undef = JSVal.val []) ∧
    (∀ x : List (String × Int), useGetInventory_result (JSVal.val x) = JSVal.val x) ∧
    (∀ (α : Type) (d : JSVal α), (useGetOrderById_result d).isUndef = false) ∧
    (∀ (α : Type), useGetOrderById_result (JSVal.undef : JSVal α) = JSVal.nullv) ∧
    (∀ (α : Type) (x : α), useGetOrderById_result (JSVal.val x) = JSVal.val x) := by
  refine ⟨?_, fun _ => rfl, fun _ _ => rfl, ?_, fun _ => rfl, fun _ _ => rfl,
    ?_, rfl, fun _ => rfl, ?_, fun _ => rfl, fun _ _ => rfl⟩
  · intro α d
    cases d <;> rfl
  · intro α d
    cases d <;> rfl
  · intro d
    cases d <;> rfl
  · intro α d
    cases d <;> rfl

/-- C2: request coalescing: from a state with no entry and no pending
request for `k`, any number of interleaved concurrent `getOrFetch` calls
for `k` invoke the underlying fetch function exactly once (the first call
starts it, every later call joins as a waiter), and when the single fetch
settles, all callers observe the same resolved value, or all are rejected
with the same error. -/
theorem C2_request_coalescing :
    ∀ (α ε : Type) (st : CoordState α ε) (k : CacheKey) (pol : FetchPolicy)
      (now c : Nat) (cs : List Nat),
      pol.enabled = true →
      assocGet st.store k = none →
      assocGet st.pending k = none →
      (startMany k pol now st (c :: cs)).2
          = StartResult.startedFetch :: cs.map (fun _ => StartResult.joinedPending) ∧
      countOf (startMany k pol now st (c :: cs)).1 k = countOf st k + 1 ∧
      (∀ (d : α) (t : Nat),
        (settleSuccess k d t (startMany k pol now st (c :: cs)).1).2
          = (c :: cs).map (fun x => (x, d))) ∧
      (∀ e : ε,
        (settleFailure k e (startMany k pol now st (c :: cs)).1).2
          = (c :: cs).map (fun x => (x, e))) := by
  intro α ε st k pol now c cs henab hstore hpend
  have hfirst : getOrFetchStart k pol now c st
      = ({ store := assocSet st.store k (toLoading none),
           pending := assocSet st.pending k [c],
           fetchCount := assocSet st.fetchCount k (countOf st k + 1) },
         StartResult.startedFetch) := by
    simp [getOrFetchStart, henab, hstore, startOrJoin, hpend]
  have hfr : ∀ e, assocGet (assocSet st.store k (toLoading none)) k = some e →
      isFresh e now pol.staleMs = false := by
    intro e he
    rw [assocGet_assocSet_same] at he
    have he2 := Option.some.inj he
    rw [← he2]
    rfl
  have hjoin := startMany_joins k pol now cs
    ({ store := assocSet st.store k (toLoading none),
       pending := assocSet st.pending k [c],
       fetchCount := assocSet st.fetchCount k (countOf st k + 1) } : CoordState α ε)
    [c] henab hfr (assocGet_assocSet_same _ _ _)
  have hrun : startMany k pol now st (c :: cs)
      = ({ store := assocSet st.store k (toLoading none),
           pending := assocSet st.pending k (c :: cs),
           fetchCount := assocSet st.fetchCount k (countOf st k + 1) },
         StartResult.startedFetch :: cs.map (fun _ => StartResult.joinedPending)) := by
    simp only [startMany, hfirst]
    rw [hjoin]
    simp [assocSet_assocSet_same]
  refine ⟨by rw [hrun], ?_, ?_, ?_⟩
  · rw [hrun]
    simp [countOf, assocGet_assocSet_same]
  · intro d t
    rw [hrun]
    simp [settleSuccess, assocGet_assocSet_same]
  · intro e
    rw [hrun]
    simp [settleFailure, assocGet_assocSet_same]

/-- C2 witness: five concurrent `getOrFetch` calls on a cold key: one
started fetch, four joins, the fetch counter at one, and all five callers
resolved with the same value (or rejected with the same error). -/
theorem C2_request_coalescing_witness :
    (startMany (petstoreKeys.petsByStatus [PetStatus.available])
        { enabled := true, staleMs := DEFAULT_STALE_TIME } 0
        (emptyState : CoordState Nat String) [1, 2, 3, 4, 5]).2
      = [StartResult.startedFetch, StartResult.joinedPending, StartResult.joinedPending,
         StartResult.joinedPending, StartResult.joinedPending] ∧
    countOf (startMany (petstoreKeys.petsByStatus [PetStatus.available])
        { enabled := true, staleMs := DEFAULT_STALE_TIME } 0
        (emptyState : CoordState Nat String) [1, 2, 3, 4, 5]).1
        (petstoreKeys.petsByStatus [PetStatus.available])
      = countOf (emptyState : CoordState Nat String)
          (petstoreKeys.petsByStatus [PetStatus.available]) + 1 ∧
    (settleSuccess (petstoreKeys.petsByStatus [PetStatus.available]) 7 5
        (startMany (petstoreKeys.petsByStatus [PetStatus.available])
          { enabled := true, staleMs := DEFAULT_STALE_TIME } 0
          (emptyState : CoordState Nat String) [1, 2, 3, 4, 5]).1).2
      = [(1, 7), (2, 7), (3, 7), (4, 7), (5, 7)] ∧
    (settleFailure (petstoreKeys.petsByStatus [PetStatus.available]) ("NetworkError")
        (startMany (petstoreKeys.petsByStatus [PetStatus.available])
          { enabled := true, staleMs := DEFAULT_STALE_TIME } 0
          (emptyState : CoordState Nat String) [1, 2, 3, 4, 5]).1).2
      = [(1, ("NetworkError" : String)), (2, "NetworkError"), (3, "NetworkError"),
         (4, "NetworkError"), (5, "NetworkError")] := by
  have h := C2_request_coalescing Nat String emptyState
    (petstoreKeys.petsByStatus [PetStatus.available])
    { enabled := true, staleMs := DEFAULT_STALE_TIME } 0 1 [2, 3, 4, 5]
    rfl rfl rfl
  exact ⟨h.1, h.2.1, h.2.2.1 7 5, h.2.2.2 ("NetworkError")⟩

/-- C3: staleness window: a `success` entry fetched at `t0` is served from
cache with no state change and no fetch invocation while
`now - t0 < staleMs`; once `now - t0 ≥ staleMs` the call starts a refetch
(one more fetch invocation); and a zero or negative `staleMs` starts a
refetch on every call whatever the cached entry holds. -/
theorem C3_staleness_window :
    (∀ (α ε : Type) (st : CoordState α ε) (k : CacheKey) (e : CacheEntry α ε)
        (t0 now c : Nat) (pol : FetchPolicy),
      pol.enabled = true →
      assocGet st.store k = some e →
      e.status = EntryStatus.success →
      e.fetchedAt = some t0 →
      0 < pol.staleMs →
      (now : Int) - (t0 : Int) < pol.staleMs →
      getOrFetchStart k pol now c st = (st, StartResult.cachedHit e.data)) ∧
    (∀ (α ε : Type) (st : CoordState α ε) (k : CacheKey) (e : CacheEntry α ε)
        (t0 now c : Nat) (pol : FetchPolicy),
      pol.enabled = true →
      assocGet st.store k = some e →
      e.status = EntryStatus.success →
      e.fetchedAt = some t0 →
      pol.staleMs ≤ (now : Int) - (t0 : Int) →
      assocGet st.pending k = none →
      (getOrFetchStart k pol now c st).2 = StartResult.startedFetch ∧
      countOf (getOrFetchStart k pol now c st).1 k = countOf st k + 1) ∧
    (∀ (α ε : Type) (st : CoordState α ε) (k : CacheKey) (e : CacheEntry α ε)
        (now c : Nat) (pol : FetchPolicy),
      pol.enabled = true →
      pol.staleMs ≤ 0 →
      assocGet st.store k = some e →
      (∀ t0 : Nat, e.fetchedAt = some t0 → t0 ≤ now) →
      assocGet st.pending k = none →
      (getOrFetchStart k pol now c st).2 = StartResult.startedFetch ∧
      countOf (getOrFetchStart k pol now c st).1 k = countOf st k + 1) := by
  refine ⟨?_, ?_, ?_⟩
  · intro α ε st k e t0 now c pol henab hget hstatus hfetched _ hlt
    have hfresh : isFresh e now pol.staleMs = true := by
      simp [isFresh, hstatus, hfetched, hlt]
    simp [getOrFetchStart, henab, hget, hfresh]
  · intro α ε st k e t0 now c pol henab hget hstatus hfetched hge hpend
    have hfresh : isFresh e now pol.staleMs = false := by
      simp only [isFresh, hfetched]
      simp [decide_eq_false_iff_not]
      omega
    constructor
    · simp [getOrFetchStart, henab, hget, hfresh, startOrJoin, hpend]
    · simp [getOrFetchStart, henab, hget, hfresh, startOrJoin, hpend,
        countOf, assocGet_assocSet_same]
  · intro α ε st k e now c pol henab hsm hget hts hpend
    have hfresh : isFresh e now pol.staleMs = false := by
      cases hf : e.fetchedAt with
      | none => simp [isFresh, hf]
      | some t0 =>
        have ht0 := hts t0 hf
        simp only [isFresh, hf]
        simp [decide_eq_false_iff_not]
        omega
    constructor
    · simp [getOrFetchStart, henab, hget, hfresh, startOrJoin, hpend]
    · simp [getOrFetchStart, henab, hget, hfresh, startOrJoin, hpend,
        countOf, assocGet_assocSet_same]

/-- C3 witness: an entry fetched at `t0 = 0` with `staleMs = 1000` is a
cache hit at `t = 500`, triggers a refetch at `t = 1001`, and with
`staleMs = 0` triggers a refetch even at `t = 0`. -/
theorem C3_staleness_window_witness :
    getOrFetchStart petstoreKeys.inventory { enabled := true, staleMs := 1000 }
        500 0 wStore3 = (wStore3, StartResult.cachedHit wEntry.data) ∧
    ((getOrFetchStart petstoreKeys.inventory { enabled := true, staleMs := 1000 }
        1001 0 wStore3).2 = StartResult.startedFetch ∧
      countOf (getOrFetchStart petstoreKeys.inventory
          { enabled := true, staleMs := 1000 } 1001 0 wStore3).1 petstoreKeys.inventory
        = countOf wStore3 petstoreKeys.inventory + 1) ∧
    ((getOrFetchStart petstoreKeys.inventory { enabled := true, staleMs := 0 }
        0 0 wStore3).2 = StartResult.startedFetch ∧
      countOf (getOrFetchStart petstoreKeys.inventory
          { enabled := true, staleMs := 0 } 0 0 wStore3).1 petstoreKeys.inventory
        = countOf wStore3 petstoreKeys.inventory + 1) :=
  ⟨C3_staleness_window.1 Nat String wStore3 petstoreKeys.inventory wEntry 0 500 0
      { enabled := true, staleMs := 1000 } rfl (by decide) rfl rfl (by decide) (by decide),
   C3_staleness_window.2.1 Nat String wStore3 petstoreKeys.inventory wEntry 0 1001 0
      { enabled := true, staleMs := 1000 } rfl (by decide) rfl rfl (by decide) (by decide),
   C3_staleness_window.2.2 Nat String wStore3 petstoreKeys.inventory wEntry 0 0
      { enabled := true, staleMs := 0 } rfl (by decide) (by decide)
      (by intro t0 ht; simp [wEntry] at ht; omega) (by decide)⟩

/-- C9: disabled queries short-circuit: with `petId ≤ 0` the policy
`useGetPetById` configures is disabled and `getOrFetch` returns at once
with the state untouched — no fetch invocation, no store access — and
likewise for `useGetOrderById` with `orderId ≤ 0`. -/
theorem C9_disabled_queries_short_circuit :
    ∀ (α ε : Type) (st : CoordState α ε) (now c : Nat) (petId orderId : Int),
      petId ≤ 0 → orderId ≤ 0 →
      getOrFetchStart (petstoreKeys.pet petId) (useGetPetById_policy petId) now c st
        = (st, StartResult.disabled) ∧
      getOrFetchStart (petstoreKeys.order orderId) (useGetOrderById_policy orderId) now c st
        = (st, StartResult.disabled) := by
  intro α ε st now c petId orderId hpet horder
  have h1 : useGetPetById_enabled petId = false := by
    simp [useGetPetById_enabled]
    omega
  have h2 : useGetOrderById_enabled orderId = false := by
    simp [useGetOrderById_enabled]
    omega
  constructor
  · simp [getOrFetchStart, useGetPetById_policy, h1]
  · simp [getOrFetchStart, useGetOrderById_policy, h2]

/-- C9 witness: `petId = 0` and `orderId = 0` short-circuit on the empty
state: result `disabled`, state returned unchanged. -/
theorem C9_disabled_queries_short_circuit_witness :
    getOrFetchStart (petstoreKeys.pet 0) (useGetPetById_policy 0) 0 0
        (emptyState : CoordState Nat String) = (emptyState, StartResult.disabled) ∧
    getOrFetchStart (petstoreKeys.order 0) (useGetOrderById_policy 0) 0 0
        (emptyState : CoordState Nat String) = (emptyState, StartResult.disabled) :=
  C9_disabled_queries_short_circuit Nat String emptyState 0 0 0 0
    (by decide) (by decide)

/-- C4: invalidation marks but never deletes: after `invalidate` with a key
sequence, every store entry whose key starts with it is still present with
status `stale` and its data unchanged; entries whose keys do not start with
it are returned exactly as before; and the next `getOrFetch` for a stale key
starts exactly one refetch which, settled successfully, leaves the entry
with status `success` again. -/
theorem C4_invalidate_marks_never_deletes :
    (∀ (α ε : Type) (st : CoordState α ε) (pref k : CacheKey) (e : CacheEntry α ε),
      assocGet st.store k = some e →
      pref.isPrefixOf k = true →
      assocGet (invalidate pref st).store k = some (markStale e) ∧
      (markStale e).status = EntryStatus.stale ∧
      (markStale e).data = e.data ∧
      (markStale e).fetchedAt = e.fetchedAt) ∧
    (∀ (α ε : Type) (st : CoordState α ε) (pref k : CacheKey),
      pref.isPrefixOf k = false →
      assocGet (invalidate pref st).store k = assocGet st.store k) ∧
    (∀ (α ε : Type) (st : CoordState α ε) (k : CacheKey) (e : CacheEntry α ε)
        (pol : FetchPolicy) (now c : Nat),
      pol.enabled = true →
      assocGet st.store k = some e →
      e.status = EntryStatus.stale →
      assocGet st.pending k = none →
      (getOrFetchStart k pol now c st).2 = StartResult.startedFetch ∧
      countOf (getOrFetchStart k pol now c st).1 k = countOf st k + 1 ∧
      (∀ (d : α) (t : Nat),
        assocGet ((settleSuccess k d t (getOrFetchStart k pol now c st).1).1).store k
          = some { data := some d, status := EntryStatus.success,
                   fetchedAt := some t, errInfo := none })) := by
  refine ⟨?_, ?_, ?_⟩
  · intro α ε st pref k e hget hpref
    refine ⟨?_, rfl, rfl, rfl⟩
    simp [invalidate, assocGet_mapStale, hpref, hget]
  · intro α ε st pref k hpref
    simp [invalidate, assocGet_mapStale, hpref]
  · intro α ε st k e pol now c henab hget hstatus hpend
    have hfresh : isFresh e now pol.staleMs = false := by
      simp [isFresh, hstatus]
    refine ⟨?_, ?_, ?_⟩
    · simp [getOrFetchStart, henab, hget, hfresh, startOrJoin, hpend]
    · simp [getOrFetchStart, henab, hget, hfresh, startOrJoin, hpend,
        countOf, assocGet_assocSet_same]
    · intro d t
      simp [getOrFetchStart, henab, hget, hfresh, startOrJoin, hpend,
        settleSuccess, assocGet_assocSet_same]

/-- C4 witness: `invalidate` with the pets key sequence marks the entry at
`pet 123` stale with its data kept, leaves the entry at `order 9`
untouched, and the next `getOrFetch` for the stale pet key starts exactly
one refetch whose successful settlement restores status `success`. -/
theorem C4_invalidate_marks_never_deletes_witness :
    (assocGet (invalidate petstoreKeys.pets w4State).store (petstoreKeys.pet 123)
        = some (markStale wEntry) ∧
      (markStale wEntry).status = EntryStatus.stale ∧
      (markStale wEntry).data = wEntry.data ∧
      (markStale wEntry).fetchedAt = wEntry.fetchedAt) ∧
    assocGet (invalidate petstoreKeys.pets w4State).store (petstoreKeys.order 9)
      = assocGet w4State.store (petstoreKeys.order 9) ∧
    ((getOrFetchStart (petstoreKeys.pet 123) { enabled := true, staleMs := 1000 } 7 0
        (invalidate petstoreKeys.pets w4State)).2 = StartResult.startedFetch ∧
      countOf (getOrFetchStart (petstoreKeys.pet 123)
          { enabled := true, staleMs := 1000 } 7 0
          (invalidate petstoreKeys.pets w4State)).1 (petstoreKeys.pet 123)
        = countOf (invalidate petstoreKeys.pets w4State) (petstoreKeys.pet 123) + 1 ∧
      (∀ (d t : Nat),
        assocGet ((settleSuccess (petstoreKeys.pet 123) d t
            (getOrFetchStart (petstoreKeys.pet 123) { enabled := true, staleMs := 1000 }
              7 0 (invalidate petstoreKeys.pets w4State)).1).1).store (petstoreKeys.pet 123)
          = some { data := some d, status := EntryStatus.success,
                   fetchedAt := some t, errInfo := none })) :=
  ⟨C4_invalidate_marks_never_deletes.1 Nat String w4State petstoreKeys.pets
      (petstoreKeys.pet 123) wEntry (by decide) (by decide),
   C4_invalidate_marks_never_deletes.2.1 Nat String w4State petstoreKeys.pets
      (petstoreKeys.order 9) (by decide),
   C4_invalidate_marks_never_deletes.2.2 Nat String
      (invalidate petstoreKeys.pets w4State) (petstoreKeys.pet 123) (markStale wEntry)
      { enabled := true, staleMs := 1000 } 7 0 rfl (by decide) rfl (by decide)⟩

/-- C5: errors are not sticky: when the single in-flight fetch for a key
fails, every coalesced waiter is rejected with the same error value, and an
immediately following `getOrFetch` for that key starts the fetch function
again (one more invocation) instead of serving anything from cache. -/
theorem C5_errors_not_sticky :
    ∀ (α ε : Type) (st : CoordState α ε) (k : CacheKey) (err : ε) (ws : List Nat),
      assocGet st.pending k = some ws →
      (settleFailure k err st).2 = ws.map (fun c => (c, err)) ∧
      (∀ (pol : FetchPolicy) (now c : Nat), pol.enabled = true →
        (getOrFetchStart k pol now c (settleFailure k err st).1).2
          = StartResult.startedFetch ∧
        countOf (getOrFetchStart k pol now c (settleFailure k err st).1).1 k
          = countOf (settleFailure k err st).1 k + 1) := by
  intro α ε st k err ws hpend
  constructor
  · simp [settleFailure, hpend]
  · intro pol now c henab
    have hget : assocGet (settleFailure k err st).1.store k
        = some { data := (assocGet st.store k).bind (fun en => en.data),
                 status := EntryStatus.error,
                 fetchedAt := (assocGet st.store k).bind (fun en => en.fetchedAt),
                 errInfo := some err } := by
      simp [settleFailure, assocGet_assocSet_same]
    have hfresh : isFresh
        { data := (assocGet st.store k).bind (fun en => en.data),
          status := EntryStatus.error,
          fetchedAt := (assocGet st.store k).bind (fun en => en.fetchedAt),
          errInfo := some err } now pol.staleMs = false := rfl
    have hpend2 : assocGet (settleFailure k err st).1.pending k = none := by
      simp [settleFailure, assocGet_assocErase_same]
    constructor
    · simp [getOrFetchStart, henab, hget, hfresh, startOrJoin, hpend2]
    · simp [getOrFetchStart, henab, hget, hfresh, startOrJoin, hpend2,
        countOf, assocGet_assocSet_same]

/-- C5 witness: a failing fetch for `pet 7` with three coalesced waiters
rejects all three with the same `"NetworkError"`, and the immediately
following `getOrFetch` for `pet 7` starts the fetch function again. -/
theorem C5_errors_not_sticky_witness :
    (settleFailure (petstoreKeys.pet 7) ("NetworkError") w5State).2
      = [(1, ("NetworkError" : String)), (2, "NetworkError"), (3, "NetworkError")] ∧
    ((getOrFetchStart (petstoreKeys.pet 7) { enabled := true, staleMs := 1000 } 0 4
        (settleFailure (petstoreKeys.pet 7) ("NetworkError") w5State).1).2
      = StartResult.startedFetch ∧
      countOf (getOrFetchStart (petstoreKeys.pet 7) { enabled := true, staleMs := 1000 }
          0 4 (settleFailure (petstoreKeys.pet 7) ("NetworkError") w5State).1).1
          (petstoreKeys.pet 7)
        = countOf (settleFailure (petstoreKeys.pet 7) ("NetworkError") w5State).1
            (petstoreKeys.pet 7) + 1) := by
  have h := C5_errors_not_sticky Nat String w5State (petstoreKeys.pet 7)
    ("NetworkError") [1, 2, 3] (by decide)
  exact ⟨h.1, h.2 { enabled := true, staleMs := 1000 } 0 4 rfl⟩

/-- C8: hydration degrades gracefully: when every server-side fetch outcome
recorded for key `k` is a failure, the snapshot of the server store (which
the total `serverRender` pipeline always produces) contains no item for
`k`; hydrating a fresh client store from that payload leaves no entry at
`k`; and the client's first `getOrFetch` for `k` is an ordinary cold fetch
(exactly one fetch invocation). -/
theorem C8_hydration_degrades_gracefully :
    ∀ (α ε : Type) (outcomes : List (CacheKey × FetchOutcome α ε)) (k : CacheKey),
      (∀ (d : α) (t : Nat), (k, FetchOutcome.ok d t) ∉ outcomes) →
      (∀ it : HydrationItem α, it ∈ snapshot (serverRender outcomes) → it.key ≠ k) ∧
      assocGet (hydrate (snapshot (serverRender outcomes))
          (emptyState : CoordState α ε)).store k = none ∧
      (∀ (pol : FetchPolicy) (now c : Nat), pol.enabled = true →
        (getOrFetchStart k pol now c (hydrate (snapshot (serverRender outcomes))
            (emptyState : CoordState α ε))).2 = StartResult.startedFetch ∧
        countOf (getOrFetchStart k pol now c (hydrate (snapshot (serverRender outcomes))
            (emptyState : CoordState α ε))).1 k = 1) := by
  intro α ε outcomes k hfail
  have hinv : ∀ e : CacheEntry α ε, (k, e) ∈ (serverRender outcomes).store →
      e.status = EntryStatus.error :=
    serverRender_error_at outcomes emptyState (by intro e he; simp [emptyState] at he) hfail
  have hkeys : ∀ it : HydrationItem α, it ∈ snapshot (serverRender outcomes) → it.key ≠ k := by
    intro it hit heq
    obtain ⟨e, hmem, hsucc⟩ := key_mem_snapshot hit
    rw [heq] at hmem
    rw [hinv e hmem] at hsucc
    cases hsucc
  have hnone : assocGet (hydrate (snapshot (serverRender outcomes))
      (emptyState : CoordState α ε)).store k = none :=
    assocGet_hydrate_none _ emptyState hkeys rfl
  have hpend : assocGet (hydrate (snapshot (serverRender outcomes))
      (emptyState : CoordState α ε)).pending k = none := by
    rw [hydrate_pending]
    rfl
  have hcnt : (hydrate (snapshot (serverRender outcomes))
      (emptyState : CoordState α ε)).fetchCount = [] := by
    rw [hydrate_fetchCount]
    rfl
  refine ⟨hkeys, hnone, ?_⟩
  intro pol now c henab
  constructor
  · simp [getOrFetchStart, henab, hnone, startOrJoin, hpend]
  · simp [getOrFetchStart, henab, hnone, startOrJoin, hpend,
      countOf, assocGet_assocSet_same, hcnt, assocGet]

/-- C8 witness: with the inventory fetch succeeding and the pets fetch
failing on the server, the hydrated client store has nothing at the pets
key and the client's first `getOrFetch` for it is a cold fetch. -/
theorem C8_hydration_degrades_gracefully_witness :
    assocGet (hydrate (snapshot (serverRender w8Outcomes))
        (emptyState : CoordState Nat String)).store petstoreKeys.pets = none ∧
    ((getOrFetchStart petstoreKeys.pets
        { enabled := true, staleMs := DEFAULT_STALE_TIME } 0 0
        (hydrate (snapshot (serverRender w8Outcomes))
          (emptyState : CoordState Nat String))).2 = StartResult.startedFetch ∧
      countOf (getOrFetchStart petstoreKeys.pets
          { enabled := true, staleMs := DEFAULT_STALE_TIME } 0 0
          (hydrate (snapshot (serverRender w8Outcomes))
            (emptyState : CoordState Nat String))).1 petstoreKeys.pets = 1) := by
  have h := C8_hydration_degrades_gracefully Nat String w8Outcomes petstoreKeys.pets
    (by intro d t hmem; simp [w8Outcomes] at hmem; exact absurd hmem.1 (by decide))
  exact ⟨h.2.1, h.2.2 { enabled := true, staleMs := DEFAULT_STALE_TIME } 0 0 rfl⟩
